import Mathlib

/-!
Shallow embedding of `src/worker.py` (Kalshi CFP market poller).

The worker repeatedly fetches market quotes through a signed HTTP GET,
filters malformed entries, writes a snapshot payload, detects price
movement against an in-memory baseline dict (`last_prices`), writes
detected movers, and sleeps a fixed interval between cycles.

Modelling conventions:
* Python/JSON values reaching the quote fields are modelled by `PyVal`
  (`none` is Python `None` / JSON null).  Prices are rationals: the
  Python floats in play are small decimal quote values whose arithmetic
  here (`-`, `abs`, `>=`) is exact.
* A market dict is modelled by `MarketDict`; each field is
  `Option PyVal`, where the outer `Option.none` means the key is absent
  (so `m.get(k)` is `(field).getD PyVal.none`, and `"k" in m` is
  `(field).isSome`).
* The `last_prices` dict is an association list keyed by the `PyVal`
  obtained from `m.get("ticker")`.
* External effects (HTTP transport, RSA-PSS signing primitive,
  Firestore write success) are parameters of the embedded functions;
  the control flow around them is translated from the source.
-/

/-- A Python/JSON value as it appears in a fetched market entry. -/
inductive PyVal where
  | none
  | num (q : ℚ)
  | str (s : String)
  | other
deriving DecidableEq

/-- Models Python `float(v)` under the worker's `try/except`: numbers
convert, `None` and non-numeric values raise (so the caller skips the
entry).  Numeric strings, which CPython would also convert, do not occur
in the API's price fields and are not distinguished here. -/
def pyFloat : PyVal → Option ℚ
  | PyVal.num q => some q
  | _ => Option.none

/-- One fetched market entry, as a dict.  Outer `Option.none` = key
absent; `some v` = key present with value `v` (possibly `PyVal.none`). -/
structure MarketDict where
  ticker : Option PyVal := Option.none
  display_name : Option PyVal := Option.none
  yes_price : Option PyVal := Option.none
  last_price : Option PyVal := Option.none
  no_price : Option PyVal := Option.none
  best_bid : Option PyVal := Option.none
  best_ask : Option PyVal := Option.none
  volume : Option PyVal := Option.none
deriving DecidableEq

/-- A raw element of the fetched `markets` JSON array: either a dict or
some non-dict value (list, string, number, ...). -/
inductive RawEntry where
  | dict (m : MarketDict)
  | nonDict
deriving DecidableEq

/-- The `last_prices` dict: ticker value ↦ last recorded float price. -/
abbrev Baseline := List (PyVal × ℚ)

/-- Python `last_prices.get(ticker)` (values stored are never `None`). -/
def Baseline.get : Baseline → PyVal → Option ℚ
  | [], _ => Option.none
  | (k, v) :: rest, t => if k = t then some v else Baseline.get rest t

/-- Python `last_prices[ticker] = price`: replace in place if the key is
present, else append. -/
def Baseline.set : Baseline → PyVal → ℚ → Baseline
  | [], t, p => [(t, p)]
  | (k, v) :: rest, t, p =>
      if k = t then (t, p) :: rest else (k, v) :: Baseline.set rest t p

@[simp] theorem Baseline.get_set_self (b : Baseline) (t : PyVal) (p : ℚ) :
    (b.set t p).get t = some p := by
  induction b with
  | nil => simp [Baseline.set, Baseline.get]
  | cons kv rest ih =>
      obtain ⟨k, v⟩ := kv
      by_cases hk : k = t <;> simp [Baseline.set, Baseline.get, hk, ih]

theorem Baseline.get_set_ne (b : Baseline) (t u : PyVal) (p : ℚ)
    (h : t ≠ u) : (b.set t p).get u = b.get u := by
  induction b with
  | nil => simp [Baseline.set, Baseline.get, h]
  | cons kv rest ih =>
      obtain ⟨k, v⟩ := kv
      by_cases hk : k = t
      · subst hk
        simp [Baseline.set, Baseline.get, h]
      · by_cases hu : k = u <;>
          simp [Baseline.set, Baseline.get, hk, hu, ih, Ne.symm h]

/-- `m.get("ticker")` as the worker reads it. -/
def MarketDict.tickerVal (m : MarketDict) : PyVal :=
  m.ticker.getD PyVal.none

/-- `price = yesp if yesp is not None else lastp` (both loops of
`poll_once` compute this identical expression). -/
def selectedPrice (m : MarketDict) : PyVal :=
  let yesp := m.yes_price.getD PyVal.none
  if yesp ≠ PyVal.none then yesp else m.last_price.getD PyVal.none

/-- The float price a quote contributes, or `Option.none` when the entry
is skipped (`price is None`, or `float(price)` raises). -/
def currentPrice (m : MarketDict) : Option ℚ :=
  match selectedPrice m with
  | PyVal.none => Option.none
  | v => pyFloat v

/-- One appended element of the `movers` list. -/
structure Mover where
  ticker : PyVal
  change : ℚ
  old : ℚ
  new : ℚ
  timestamp : String
deriving DecidableEq

/-- The body of the `for m in markets` detection loop in `poll_once`:
skip entries without a usable price; first observation records the price
and emits nothing; otherwise append a mover and update the baseline only
when `abs(diff) >= MIN_MOVE`. -/
def detectStep (minMove : ℚ) (ts : String) (st : Baseline × List Mover)
    (m : MarketDict) : Baseline × List Mover :=
  match currentPrice m with
  | Option.none => st
  | some price =>
    match st.1.get m.tickerVal with
    | Option.none => (st.1.set m.tickerVal price, st.2)
    | some prev =>
        let diff := price - prev
        if minMove ≤ |diff| then
          (st.1.set m.tickerVal price,
           st.2 ++ [{ ticker := m.tickerVal, change := diff, old := prev,
                      new := price, timestamp := ts }])
        else st

/-- The detection loop folded over the batch. -/
def detectLoop (minMove : ℚ) (ts : String) :
    Baseline × List Mover → List MarketDict → Baseline × List Mover
  | st, [] => st
  | st, m :: rest => detectLoop minMove ts (detectStep minMove ts st m) rest

/-- Detection pass of `poll_once`: starts from the incoming
`last_prices` and an empty `movers` list. -/
def detectMovers (minMove : ℚ) (ts : String) (last_prices : Baseline)
    (markets : List MarketDict) : Baseline × List Mover :=
  detectLoop minMove ts (last_prices, []) markets

example :
    detectMovers 5 "t" [(PyVal.str "A", 50)]
      [{ ticker := some (PyVal.str "A"),
         yes_price := some (PyVal.num 52) }] =
    ([(PyVal.str "A", 50)], []) := by
  have h : currentPrice
      { ticker := some (PyVal.str "A"), yes_price := some (PyVal.num 52) } =
      some 52 := rfl
  norm_num [detectMovers, detectLoop, detectStep, h,
    MarketDict.tickerVal, Baseline.get]

example :
    detectMovers 2 "t" [(PyVal.str "A", 50)]
      [{ ticker := some (PyVal.str "A"),
         yes_price := some (PyVal.num 53) }] =
    ([(PyVal.str "A", 53)],
     [{ ticker := PyVal.str "A", change := 3, old := 50, new := 53,
        timestamp := "t" }]) := by
  have h : currentPrice
      { ticker := some (PyVal.str "A"), yes_price := some (PyVal.num 53) } =
      some 53 := rfl
  norm_num [detectMovers, detectLoop, detectStep, h,
    MarketDict.tickerVal, Baseline.get, Baseline.set]

/-- One element of the `ticker_payload` list written to
`cfp_markets/current` (the snapshot).  Note there is no `no_price`
field: the worker never reads `no_price`. -/
structure PayloadItem where
  ticker : PyVal
  yes_price : PyVal
  last_price : PyVal
  best_bid : PyVal
  best_ask : PyVal
  probability : Option ℚ
deriving DecidableEq

/-- The body of the payload-building loop: skipped when
`price is None`, else an item whose `probability` is `float(price)/100`
when the conversion succeeds and `None` when it raises. -/
def payloadItem? (m : MarketDict) : Option PayloadItem :=
  match selectedPrice m with
  | PyVal.none => Option.none
  | v =>
      some { ticker := m.tickerVal,
             yes_price := m.yes_price.getD PyVal.none,
             last_price := m.last_price.getD PyVal.none,
             best_bid := m.best_bid.getD PyVal.none,
             best_ask := m.best_ask.getD PyVal.none,
             probability := (pyFloat v).map (fun q => q / 100) }

/-- The full `ticker_payload` list of `poll_once`. -/
def tickerPayload (markets : List MarketDict) : List PayloadItem :=
  markets.filterMap payloadItem?

/-- The JSON body of a market response, when it parses as a dict:
`markets` is `Option.none` when the key is absent (then
`data.get("markets", [])` yields `[]`). -/
structure JsonBody where
  markets : Option (List RawEntry)
deriving DecidableEq

/-- An HTTP response from Kalshi: `json = Option.none` models a body
`resp.json()` fails to parse. -/
structure HttpResp where
  status : Nat
  json : Option JsonBody
deriving DecidableEq

/-- The filtering loop of `fetch_cfp_markets`: keep only dict entries
that contain a `ticker` key. -/
def cleanMarkets (raw : List RawEntry) : List MarketDict :=
  raw.filterMap fun e =>
    match e with
    | RawEntry.dict m => if m.ticker.isSome then some m else Option.none
    | RawEntry.nonDict => Option.none

/-- `fetch_cfp_markets`, given the outcome of the signed GET
(`Option.none` models `kalshi_signed_request` returning `None`): no
response, a non-JSON body, and a non-200 status each yield `[]`;
otherwise the cleaned `markets` list. -/
def fetch_cfp_markets (resp : Option HttpResp) : List MarketDict :=
  match resp with
  | Option.none => []
  | some r =>
      match r.json with
      | Option.none => []
      | some body =>
          if r.status ≠ 200 then []
          else cleanMarkets (body.markets.getD [])

/-- Whether each of the cycle's two Firestore `set` calls succeeds
(`false` = the call raises; both are wrapped in `try/except`). -/
structure WriteOutcomes where
  snapshotOk : Bool
  moversOk : Bool
deriving DecidableEq

/-- Observable outcome of one `poll_once` call.  The Python function
returns `(last_prices, len(movers))`; the other fields record the
cycle's write effects for the specification. -/
structure CycleResult where
  baseline : Baseline
  moversCount : Nat
  payload : List PayloadItem
  movers : List Mover
  snapshotAttempted : Bool
  snapshotWritten : Bool
  moversAttempted : Bool
  moversWritten : Bool
deriving DecidableEq

/-- The result of a cycle that saw `if not markets:` — baseline returned
unchanged, nothing written. -/
def emptyCycle (last_prices : Baseline) : CycleResult :=
  { baseline := last_prices, moversCount := 0, payload := [], movers := [],
    snapshotAttempted := false, snapshotWritten := false,
    moversAttempted := false, moversWritten := false }

/-- `poll_once`: fetch, bail out on an empty market list, build and
write the snapshot payload, detect movers (mutating `last_prices`),
write the movers doc when any were found. -/
def poll_once (minMove : ℚ) (ts : String) (w : WriteOutcomes)
    (resp : Option HttpResp) (last_prices : Baseline) : CycleResult :=
  let markets := fetch_cfp_markets resp
  if markets.isEmpty then emptyCycle last_prices
  else
    let payload := tickerPayload markets
    let det := detectMovers minMove ts last_prices markets
    { baseline := det.1, moversCount := det.2.length,
      payload := payload, movers := det.2,
      snapshotAttempted := true, snapshotWritten := w.snapshotOk,
      moversAttempted := !det.2.isEmpty,
      moversWritten := !det.2.isEmpty && w.moversOk }

/-- One iteration of `main`'s `while True:` loop: either `poll_once`
runs to completion, or an exception escapes it and is caught by the
loop's `try/except`.  Because `last_prices` is mutated in place, an
exception raised after `k` iterations of the detection loop leaves the
dict with exactly those updates (`k = 0`: an exception before any
detection step, e.g. while fetching or writing the snapshot). -/
inductive CycleInput where
  | ok (ts : String) (w : WriteOutcomes) (resp : Option HttpResp)
  | raised (ts : String) (resp : Option HttpResp) (k : Nat)

/-- Whether the iteration hit the loop's `except` branch. -/
def CycleInput.errored : CycleInput → Bool
  | CycleInput.ok _ _ _ => false
  | CycleInput.raised _ _ _ => true

/-- The baseline the loop holds after one iteration. -/
def cycleBaseline (minMove : ℚ) (b : Baseline) : CycleInput → Baseline
  | CycleInput.ok ts w resp => (poll_once minMove ts w resp b).baseline
  | CycleInput.raised ts resp k =>
      let markets := fetch_cfp_markets resp
      if markets.isEmpty then b
      else (detectLoop minMove ts (b, []) (markets.take k)).1

/-- `time.sleep(5)` at the bottom of the loop body. -/
def POLL_INTERVAL : Nat := 5

/-- What the loop does, observably, per iteration. -/
inductive LoopEvent where
  | ranCycle (errored : Bool)
  | slept (seconds : Nat)
deriving DecidableEq

/-- The baseline after the loop has run through a list of iterations. -/
def runLoop (minMove : ℚ) (b : Baseline) : List CycleInput → Baseline
  | [] => b
  | inp :: rest => runLoop minMove (cycleBaseline minMove b inp) rest

/-- The loop's event trace: every iteration — caught error or not —
runs its cycle and then sleeps `POLL_INTERVAL` seconds. -/
def loopTrace : List CycleInput → List LoopEvent
  | [] => []
  | inp :: rest =>
      LoopEvent.ranCycle inp.errored :: LoopEvent.slept POLL_INTERVAL ::
        loopTrace rest

/-- `BASE` from the worker's configuration block. -/
def BASE : String := "https://api.elections.kalshi.com/trade-api/v2"

/-- `CFP_EVENT` from the worker's configuration block. -/
def CFP_EVENT : String := "KXNCAAFPLAYOFF-25"

/-- The URL `fetch_cfp_markets` builds for its signed GET. -/
def marketsUrl : String :=
  BASE ++ "/markets?event_ticker=" ++ CFP_EVENT ++ "&limit=500"

/-- The characters after the first scheme separator `://`, when the URL
has one. -/
def afterSchemeSep : List Char → Option (List Char)
  | ':' :: '/' :: '/' :: rest => some rest
  | _ :: rest => afterSchemeSep rest
  | [] => Option.none

/-- The characters before the first occurrence of `c`. -/
def takeUntilChar (c : Char) : List Char → List Char
  | [] => []
  | x :: xs => if x = c then [] else x :: takeUntilChar c xs

/-- `urlparse(url).path` for the URLs the worker signs: text after the
scheme separator and the authority (up to the first `/`), truncated at
the fragment and query separators — so the host and the query string
are excluded. -/
def urlparse_path (url : String) : String :=
  match afterSchemeSep url.toList with
  | some rest =>
      String.mk
        (takeUntilChar '?'
          (takeUntilChar '#' (rest.dropWhile (fun c => c != '/'))))
  | Option.none =>
      String.mk (takeUntilChar '?' (takeUntilChar '#' url.toList))

example : urlparse_path marketsUrl = "/trade-api/v2/markets" := by decide

/-- UTF-8 encoding of one character (as byte values). -/
def utf8Bytes (c : Char) : List Nat :=
  let n := c.toNat
  if n < 128 then [n]
  else if n < 2048 then [192 + n / 64, 128 + n % 64]
  else if n < 65536 then
    [224 + n / 4096, 128 + n / 64 % 64, 128 + n % 64]
  else
    [240 + n / 262144, 128 + n / 4096 % 64, 128 + n / 64 % 64,
     128 + n % 64]

/-- `message.encode()`: the UTF-8 bytes of the signed message. -/
def strBytes (s : String) : List Nat :=
  (s.toList.map utf8Bytes).flatten

/-- The base64 alphabet used by `base64.b64encode`. -/
def b64Alphabet : List Char :=
  "ABCDEFGHIJKLMNOPQRSTUVWXYZabcdefghijklmnopqrstuvwxyz0123456789+/".toList

/-- One base64 digit (inputs are always below 64). -/
def b64char (n : Nat) : Char := b64Alphabet.getD n '='

/-- `base64.b64encode(bytes).decode()`. -/
def b64encode : List Nat → String
  | [] => ""
  | [a] =>
      String.mk [b64char (a / 4), b64char (a % 4 * 16), '=', '=']
  | [a, b] =>
      String.mk [b64char (a / 4), b64char (a % 4 * 16 + b / 16),
                 b64char (b % 16 * 4), '=']
  | a :: b :: c :: rest =>
      String.mk [b64char (a / 4), b64char (a % 4 * 16 + b / 16),
                 b64char (b % 16 * 4 + c / 64), b64char (c % 64)] ++
        b64encode rest

example : b64encode (strBytes "Man") = "TWFu" := by decide

/-- The header dict sent with a signed request. -/
structure SignedHeaders where
  accessKey : String
  timestamp : String
  signature : String
  contentType : String
deriving DecidableEq

/-- Outcome of `kalshi_signed_request`: `signError` is the early
`return None` when `private_key.sign` raises (no request is sent at
all); `sent h resp` records the headers of the request that went out and
the transport's answer (`Option.none` = `RequestException`, also
returned to the caller as `None`). -/
inductive ReqOutcome where
  | signError
  | sent (headers : SignedHeaders) (resp : Option HttpResp)

/-- `kalshi_signed_request` for a GET.  `rsaPssSha256Sign` stands for
`private_key.sign(·, PSS(MGF1(SHA256), MAX_LENGTH), SHA256)` — the
library primitive, `Option.none` when it raises; `transport` stands for
`requests.get`; `timeMs` is `int(time.time() * 1000)`, the milliseconds
since the Unix epoch at call time. -/
def kalshi_signed_request
    (rsaPssSha256Sign : List Nat → Option (List Nat))
    (transport : SignedHeaders → Option HttpResp)
    (apiKey : String) (timeMs : Nat) (method url : String) : ReqOutcome :=
  let path := urlparse_path url
  let timestamp := toString timeMs
  let message := timestamp ++ method.toUpper ++ path
  match rsaPssSha256Sign (strBytes message) with
  | Option.none => ReqOutcome.signError
  | some sigBytes =>
      let headers : SignedHeaders :=
        { accessKey := apiKey, timestamp := timestamp,
          signature := b64encode sigBytes,
          contentType := "application/json" }
      ReqOutcome.sent headers (transport headers)

/-- The three fetch-failure modes of `fetch_cfp_markets`: no HTTP
response, a body `resp.json()` cannot parse, a non-200 status. -/
def fetchFailedB (resp : Option HttpResp) : Bool :=
  match resp with
  | Option.none => true
  | some r => r.json.isNone || r.status != 200

/-- Claim C5 (confirmed): if the fetch for a cycle fails (no HTTP
response, non-JSON body, or non-200 status), that cycle leaves the
baseline exactly as it was, writes neither a snapshot nor any movement
records, and the next cycle proceeds from the same baseline. -/
theorem C5_fetch_failure_frame (mm : ℚ) (ts : String) (w : WriteOutcomes)
    (resp : Option HttpResp) (b : Baseline)
    (h : fetchFailedB resp = true) :
    fetch_cfp_markets resp = [] ∧
    poll_once mm ts w resp b = emptyCycle b ∧
    ∀ rest, runLoop mm b (CycleInput.ok ts w resp :: rest) =
      runLoop mm b rest := by
  have hf : fetch_cfp_markets resp = [] := by
    cases resp with
    | none => rfl
    | some r =>
        cases hj : r.json with
        | none => simp [fetch_cfp_markets, hj]
        | some body =>
            have hs : r.status ≠ 200 := by
              simpa [fetchFailedB, hj] using h
            simp [fetch_cfp_markets, hj, hs]
  refine ⟨hf, ?_, ?_⟩
  · simp [poll_once, hf]
  · intro rest
    simp [runLoop, cycleBaseline, poll_once, hf, emptyCycle]

/-- Claim C5 witness: a transport failure (no response) on a concrete
baseline. -/
theorem C5_witness :
    fetchFailedB Option.none = true ∧
    poll_once 1 "ts" ⟨true, true⟩ Option.none [(PyVal.str "A", 7)] =
      emptyCycle [(PyVal.str "A", 7)] :=
  ⟨rfl,
   (C5_fetch_failure_frame 1 "ts" ⟨true, true⟩ Option.none
      [(PyVal.str "A", 7)] rfl).2.1⟩

/-- Claim C6 (confirmed): any error raised within a cycle is caught at
the loop boundary: after an arbitrary history `pre`, the iteration
`inp` — whether it completes or raises — hands the baseline it left to
the remaining iterations, and the loop's trace shows the cycle followed
by a `POLL_INTERVAL`-second sleep before the next cycle starts. -/
theorem C6_loop_error_isolation (mm : ℚ) (b : Baseline)
    (pre : List CycleInput) (inp : CycleInput) (rest : List CycleInput) :
    runLoop mm b (pre ++ inp :: rest) =
      runLoop mm (cycleBaseline mm (runLoop mm b pre) inp) rest ∧
    loopTrace (pre ++ inp :: rest) =
      loopTrace pre ++ LoopEvent.ranCycle inp.errored ::
        LoopEvent.slept POLL_INTERVAL :: loopTrace rest := by
  induction pre generalizing b with
  | nil => simp [runLoop, loopTrace]
  | cons p ps ih =>
      constructor
      · simpa [runLoop] using (ih (cycleBaseline mm b p)).1
      · simpa [loopTrace] using (ih (cycleBaseline mm b p)).2

/-- Claim C7 (confirmed): Firestore write failures change nothing but
the write-success flags — the baseline, the detected movers, the
payload, and whether the later writes are still attempted are all
identical whatever the write outcomes, so a write failure neither stops
the cycle nor rolls back the in-memory baseline. -/
theorem C7_write_failure_isolated (mm : ℚ) (ts : String)
    (resp : Option HttpResp) (b : Baseline) (w w' : WriteOutcomes) :
    (poll_once mm ts w resp b).baseline =
      (poll_once mm ts w' resp b).baseline ∧
    (poll_once mm ts w resp b).movers =
      (poll_once mm ts w' resp b).movers ∧
    (poll_once mm ts w resp b).moversCount =
      (poll_once mm ts w' resp b).moversCount ∧
    (poll_once mm ts w resp b).payload =
      (poll_once mm ts w' resp b).payload ∧
    (poll_once mm ts w resp b).snapshotAttempted =
      (poll_once mm ts w' resp b).snapshotAttempted ∧
    (poll_once mm ts w resp b).moversAttempted =
      (poll_once mm ts w' resp b).moversAttempted := by
  by_cases h : (fetch_cfp_markets resp).isEmpty <;>
    simp [poll_once, h, emptyCycle]

/-- A raw entry passes `fetch_cfp_markets`' validation iff it is a dict
and has a `ticker` key. -/
def validEntry : RawEntry → Bool
  | RawEntry.dict m => m.ticker.isSome
  | RawEntry.nonDict => false

/-- A 200 response whose JSON body carries the given `markets` array. -/
def mkResp (raw : List RawEntry) : Option HttpResp :=
  some { status := 200, json := some { markets := some raw } }

theorem fetch_mkResp (raw : List RawEntry) :
    fetch_cfp_markets (mkResp raw) = cleanMarkets raw := by
  simp [fetch_cfp_markets, mkResp]

theorem cleanMarkets_append (a c : List RawEntry) :
    cleanMarkets (a ++ c) = cleanMarkets a ++ cleanMarkets c := by
  simp [cleanMarkets, List.filterMap_append]

theorem cleanMarkets_invalid_cons (bad : RawEntry) (l : List RawEntry)
    (h : validEntry bad = false) :
    cleanMarkets (bad :: l) = cleanMarkets l := by
  cases bad with
  | nonDict => simp [cleanMarkets]
  | dict m =>
      simp only [validEntry] at h
      simp [cleanMarkets, h]

/-- Claim C9 (confirmed): an entry that is not a dict or has no `ticker`
key is dropped by the fetch filter, so the whole cycle — snapshot
payload, movers, baseline — is identical with or without it. -/
theorem C9_malformed_entry_excluded (mm : ℚ) (ts : String)
    (w : WriteOutcomes) (b : Baseline) (r1 r2 : List RawEntry)
    (bad : RawEntry) (h : validEntry bad = false) :
    cleanMarkets (r1 ++ bad :: r2) = cleanMarkets (r1 ++ r2) ∧
    poll_once mm ts w (mkResp (r1 ++ bad :: r2)) b =
      poll_once mm ts w (mkResp (r1 ++ r2)) b := by
  have hcl : cleanMarkets (r1 ++ bad :: r2) = cleanMarkets (r1 ++ r2) := by
    rw [cleanMarkets_append, cleanMarkets_append,
        cleanMarkets_invalid_cons bad r2 h]
  refine ⟨hcl, ?_⟩
  simp only [poll_once, fetch_mkResp, hcl]

/-- Claim C9 witness: a `nonDict` entry alongside one well-formed
market. -/
theorem C9_witness :
    validEntry RawEntry.nonDict = false ∧
    cleanMarkets ([] ++ RawEntry.nonDict ::
        [RawEntry.dict { ticker := some (PyVal.str "A") }]) =
      cleanMarkets ([] ++ [RawEntry.dict { ticker := some (PyVal.str "A") }]) :=
  ⟨rfl,
   (C9_malformed_entry_excluded 1 "ts" ⟨true, true⟩ [] []
      [RawEntry.dict { ticker := some (PyVal.str "A") }]
      RawEntry.nonDict rfl).1⟩

/-- Claim C10 (confirmed): the price used for the snapshot payload and
for movement detection is `yes_price` when non-null, otherwise
`last_price`; `no_price` is never consulted (changing it changes
nothing); a quote with both `yes_price` and `last_price` null is
excluded from the payload and leaves the detector state — baseline
included — untouched. -/
theorem C10_price_selection (mm : ℚ) (ts : String)
    (st : Baseline × List Mover) (m : MarketDict) (v : Option PyVal) :
    detectStep mm ts st { m with no_price := v } = detectStep mm ts st m ∧
    payloadItem? { m with no_price := v } = payloadItem? m ∧
    (m.yes_price.getD PyVal.none ≠ PyVal.none →
      selectedPrice m = m.yes_price.getD PyVal.none) ∧
    (m.yes_price.getD PyVal.none = PyVal.none →
      selectedPrice m = m.last_price.getD PyVal.none) ∧
    (selectedPrice m ≠ PyVal.none →
      payloadItem? m =
        some { ticker := m.tickerVal,
               yes_price := m.yes_price.getD PyVal.none,
               last_price := m.last_price.getD PyVal.none,
               best_bid := m.best_bid.getD PyVal.none,
               best_ask := m.best_ask.getD PyVal.none,
               probability :=
                 (pyFloat (selectedPrice m)).map (fun q => q / 100) }) ∧
    (m.yes_price.getD PyVal.none = PyVal.none →
      m.last_price.getD PyVal.none = PyVal.none →
      payloadItem? m = Option.none ∧ detectStep mm ts st m = st) := by
  refine ⟨rfl, rfl, ?_, ?_, ?_, ?_⟩
  · intro h; simp [selectedPrice, h]
  · intro h; simp [selectedPrice, h]
  · intro h
    cases hsp : selectedPrice m with
    | none => exact absurd hsp h
    | num q => simp [payloadItem?, hsp]
    | str s => simp [payloadItem?, hsp]
    | other => simp [payloadItem?, hsp]
  · intro hy hl
    have hsp : selectedPrice m = PyVal.none := by simp [selectedPrice, hy, hl]
    exact ⟨by simp [payloadItem?, hsp],
           by simp [detectStep, currentPrice, hsp]⟩

/-- Claim C10 witness: a quote with both prices null contributes
nothing. -/
theorem C10_witness :
    ({ } : MarketDict).yes_price.getD PyVal.none = PyVal.none ∧
    ({ } : MarketDict).last_price.getD PyVal.none = PyVal.none ∧
    payloadItem? { } = Option.none ∧
    detectStep 1 "ts" ([], []) { } = ([], []) :=
  ⟨rfl, rfl,
   ((C10_price_selection 1 "ts" ([], []) { } Option.none).2.2.2.2.2
      rfl rfl).1,
   ((C10_price_selection 1 "ts" ([], []) { } Option.none).2.2.2.2.2
      rfl rfl).2⟩

/-- Claim C8 (confirmed): the signed request carries a timestamp that is
the decimal string of the epoch-milliseconds clock reading, and a
signature that is the base64 encoding of the RSA-PSS/SHA-256 primitive
applied to the exact bytes `timestamp + method.upper() + path`, where
the path comes from `urlparse` and so excludes host and query string
(shown concretely for the URL the worker fetches); when the signing
primitive fails the function returns the failure and sends no request
at all. -/
theorem C8_signed_request
    (rsaPssSha256Sign : List Nat → Option (List Nat))
    (transport : SignedHeaders → Option HttpResp)
    (apiKey : String) (timeMs : Nat) (method url : String) :
    (rsaPssSha256Sign
        (strBytes (toString timeMs ++ method.toUpper ++ urlparse_path url)) =
          Option.none →
      kalshi_signed_request rsaPssSha256Sign transport apiKey timeMs
        method url = ReqOutcome.signError) ∧
    (∀ sig,
      rsaPssSha256Sign
        (strBytes (toString timeMs ++ method.toUpper ++ urlparse_path url)) =
          some sig →
      kalshi_signed_request rsaPssSha256Sign transport apiKey timeMs
        method url =
        ReqOutcome.sent
          { accessKey := apiKey, timestamp := toString timeMs,
            signature := b64encode sig,
            contentType := "application/json" }
          (transport
            { accessKey := apiKey, timestamp := toString timeMs,
              signature := b64encode sig,
              contentType := "application/json" })) ∧
    urlparse_path marketsUrl = "/trade-api/v2/markets" := by
  refine ⟨?_, ?_, by decide⟩
  · intro h
    simp [kalshi_signed_request, h]
  · intro sig h
    simp [kalshi_signed_request, h]

/-- Claim C8 witness: a failing primitive yields `signError` (no request
sent); a succeeding one yields a request whose signature is the base64
of the primitive's output. -/
theorem C8_witness :
    kalshi_signed_request (fun _ => Option.none) (fun _ => Option.none)
      "key" 1700000000000 "get" marketsUrl = ReqOutcome.signError ∧
    kalshi_signed_request (fun _ => some [77, 97, 110])
        (fun _ => Option.none) "key" 1700000000000 "get" marketsUrl =
      ReqOutcome.sent
        { accessKey := "key", timestamp := toString 1700000000000,
          signature := b64encode [77, 97, 110],
          contentType := "application/json" }
        Option.none :=
  ⟨(C8_signed_request (fun _ => Option.none) (fun _ => Option.none)
      "key" 1700000000000 "get" marketsUrl).1 rfl,
   (C8_signed_request (fun _ => some [77, 97, 110]) (fun _ => Option.none)
      "key" 1700000000000 "get" marketsUrl).2.1 [77, 97, 110] rfl⟩

example : b64encode [77, 97, 110] = "TWFu" := by decide
example : (toString 1700000000000 : String) = "1700000000000" := by decide

/-- A well-formed quote: `ticker` key present with value `t`,
`yes_price` the number `p`. -/
def mkMarket (t : PyVal) (p : ℚ) : MarketDict :=
  { ticker := some t, yes_price := some (PyVal.num p) }

theorem mkMarket_tickerVal (t : PyVal) (p : ℚ) :
    (mkMarket t p).tickerVal = t := rfl

theorem currentPrice_mkMarket (t : PyVal) (p : ℚ) :
    currentPrice (mkMarket t p) = some p := rfl

/-- Claim C1 (corrected at an explicit input): with threshold 5,
baseline `A ↦ 50` and a fetched price of 52, the difference `2` is
nonzero yet no movement record at all is emitted — sub-threshold
changes are dropped, contrary to the claim. -/
theorem C1_counterexample :
    (detectMovers 5 "ts" [(PyVal.str "A", 50)]
        [mkMarket (PyVal.str "A") 52]).2 = [] ∧
    (52 : ℚ) - 50 ≠ 0 := by
  constructor
  · norm_num [detectMovers, detectLoop, detectStep, currentPrice_mkMarket,
      mkMarket_tickerVal, Baseline.get]
  · norm_num

/-- Claim C1 (amended): for a quote whose ticker is already in the
baseline, the detector emits exactly one movement record — with
`change = current - previous` — iff `|current - previous| >= threshold`,
and emits nothing (and leaves the state untouched) otherwise; there is
no `significant` flag, and sub-threshold nonzero changes are dropped. -/
theorem C1_threshold_gated_emission (mm : ℚ) (ts : String)
    (st : Baseline × List Mover) (m : MarketDict) (p prev : ℚ)
    (hp : currentPrice m = some p)
    (hprev : st.1.get m.tickerVal = some prev) :
    detectStep mm ts st m =
      (if mm ≤ |p - prev| then
        (st.1.set m.tickerVal p,
         st.2 ++ [{ ticker := m.tickerVal, change := p - prev, old := prev,
                    new := p, timestamp := ts }])
      else st) ∧
    ((detectStep mm ts st m).2.length = st.2.length + 1 ↔ mm ≤ |p - prev|) ∧
    ((detectStep mm ts st m).2 = st.2 ↔ ¬ mm ≤ |p - prev|) := by
  refine ⟨by simp [detectStep, hp, hprev], ?_, ?_⟩ <;>
    by_cases hc : mm ≤ |p - prev| <;> simp [detectStep, hp, hprev, hc]

/-- Claim C1 witness: threshold 2, baseline `A ↦ 50`, fetched price 53:
the record for the 3-point move is emitted. -/
theorem C1_witness :
    currentPrice (mkMarket (PyVal.str "A") 53) = some 53 ∧
    Baseline.get [(PyVal.str "A", 50)]
      (mkMarket (PyVal.str "A") 53).tickerVal = some 50 ∧
    ((detectStep 2 "ts" ([(PyVal.str "A", 50)], [])
        (mkMarket (PyVal.str "A") 53)).2.length = 0 + 1 ↔
      (2 : ℚ) ≤ |53 - 50|) :=
  ⟨rfl, rfl,
   (C1_threshold_gated_emission 2 "ts" ([(PyVal.str "A", 50)], [])
      (mkMarket (PyVal.str "A") 53) 53 50 rfl rfl).2.1⟩

/-- One whole poll cycle (successful fetch and writes) whose batch is
the single quote `t ↦ p`. -/
def cycleOnce (mm : ℚ) (t : PyVal) (p : ℚ) (b : Baseline) : Baseline :=
  (poll_once mm "" ⟨true, true⟩
    (mkResp [RawEntry.dict (mkMarket t p)]) b).baseline

/-- N consecutive cycles observing ticker `t` at prices `ps`. -/
def runCycles (mm : ℚ) (t : PyVal) : List ℚ → Baseline → Baseline
  | [], b => b
  | p :: ps, b => runCycles mm t ps (cycleOnce mm t p b)

theorem cycleOnce_eq (mm : ℚ) (t : PyVal) (p : ℚ) (b : Baseline) :
    cycleOnce mm t p b = (detectStep mm "" (b, []) (mkMarket t p)).1 := by
  simp [cycleOnce, poll_once, fetch_cfp_markets, mkResp, cleanMarkets,
    mkMarket, detectMovers, detectLoop]

theorem detectStep_present_get (mm : ℚ) (ts : String) (b : Baseline)
    (mv : List Mover) (t : PyVal) (p cur : ℚ) (h : b.get t = some cur) :
    (detectStep mm ts (b, mv) (mkMarket t p)).1.get t =
      some (if mm ≤ |p - cur| then p else cur) := by
  by_cases hc : mm ≤ |p - cur| <;>
    simp [detectStep, currentPrice_mkMarket, mkMarket_tickerVal, h, hc]

theorem runCycles_get (mm : ℚ) (t : PyVal) (ps : List ℚ) :
    ∀ (b : Baseline) (cur : ℚ), b.get t = some cur →
      (runCycles mm t ps b).get t =
        some (ps.foldl (fun c q => if mm ≤ |q - c| then q else c) cur) := by
  induction ps with
  | nil =>
      intro b cur h
      simpa [runCycles] using h
  | cons p ps ih =>
      intro b cur h
      have hstep : (cycleOnce mm t p b).get t =
          some (if mm ≤ |p - cur| then p else cur) := by
        rw [cycleOnce_eq]
        exact detectStep_present_get mm "" b [] t p cur h
      simpa [runCycles] using ih (cycleOnce mm t p b) _ hstep

/-- Claim C2 (corrected at an explicit input): with threshold 5, after
observing ticker `A` at 50 and then at 52, the baseline still maps `A`
to 50, not to the last observed price 52 — the update is conditional on
the threshold. -/
theorem C2_counterexample :
    (runCycles 5 (PyVal.str "A") [50, 52] []).get (PyVal.str "A") =
      some 50 ∧
    (50 : ℚ) ≠ 52 := by
  constructor
  · norm_num [runCycles, cycleOnce_eq, detectStep, currentPrice_mkMarket,
      mkMarket_tickerVal, Baseline.get, Baseline.set]
  · norm_num

/-- Claim C2 (amended): the baseline is updated to the current price
only on first observation or when `|current - previous| >= threshold`;
after N consecutive cycles observing ticker `t` at prices `p :: ps`,
the baseline for `t` equals the fold that keeps the previous value
whenever a change stays below the threshold (so in general not the last
observed price). -/
theorem C2_baseline_threshold_fold (mm : ℚ) (t : PyVal) (p : ℚ)
    (ps : List ℚ) :
    (runCycles mm t (p :: ps) []).get t =
      some (ps.foldl (fun c q => if mm ≤ |q - c| then q else c) p) := by
  have h0 : (cycleOnce mm t p []).get t = some p := by
    rw [cycleOnce_eq]
    simp [detectStep, currentPrice_mkMarket, mkMarket_tickerVal,
      Baseline.get]
  simpa [runCycles] using runCycles_get mm t ps (cycleOnce mm t p []) p h0

theorem detectStep_other_ticker (mm : ℚ) (ts : String)
    (st : Baseline × List Mover) (m : MarketDict) (t : PyVal)
    (h : m.tickerVal ≠ t) :
    (detectStep mm ts st m).1.get t = st.1.get t ∧
    ∀ r ∈ (detectStep mm ts st m).2, r ∈ st.2 ∨ r.ticker ≠ t := by
  cases hp : currentPrice m with
  | none =>
      have he : detectStep mm ts st m = st := by simp [detectStep, hp]
      rw [he]
      exact ⟨rfl, fun r hr => Or.inl hr⟩
  | some price =>
      cases hg : st.1.get m.tickerVal with
      | none =>
          have he : detectStep mm ts st m =
              (st.1.set m.tickerVal price, st.2) := by
            simp [detectStep, hp, hg]
          rw [he]
          exact ⟨Baseline.get_set_ne st.1 m.tickerVal t price h,
                 fun r hr => Or.inl hr⟩
      | some prev =>
          by_cases hc : mm ≤ |price - prev|
          · have he : detectStep mm ts st m =
                (st.1.set m.tickerVal price,
                 st.2 ++ [{ ticker := m.tickerVal, change := price - prev,
                            old := prev, new := price,
                            timestamp := ts }]) := by
              simp [detectStep, hp, hg, hc]
            rw [he]
            refine ⟨Baseline.get_set_ne st.1 m.tickerVal t price h, ?_⟩
            intro r hr
            rcases List.mem_append.mp hr with h1 | h2
            · exact Or.inl h1
            · simp only [List.mem_singleton] at h2
              subst h2
              exact Or.inr h
          · have he : detectStep mm ts st m = st := by
              simp [detectStep, hp, hg, hc]
            rw [he]
            exact ⟨rfl, fun r hr => Or.inl hr⟩

theorem detectLoop_other_tickers (mm : ℚ) (ts : String) (t : PyVal) :
    ∀ (ms : List MarketDict) (st : Baseline × List Mover),
      (∀ m ∈ ms, m.tickerVal ≠ t) →
      (detectLoop mm ts st ms).1.get t = st.1.get t ∧
      ∀ r ∈ (detectLoop mm ts st ms).2, r ∈ st.2 ∨ r.ticker ≠ t := by
  intro ms
  induction ms with
  | nil =>
      intro st h
      exact ⟨rfl, fun r hr => Or.inl hr⟩
  | cons m ms ih =>
      intro st h
      have hm : m.tickerVal ≠ t := h m (List.mem_cons_self m ms)
      have hrest : ∀ m' ∈ ms, m'.tickerVal ≠ t :=
        fun m' hm' => h m' (List.mem_cons_of_mem _ hm')
      have hstep := detectStep_other_ticker mm ts st m t hm
      have hloop := ih (detectStep mm ts st m) hrest
      refine ⟨?_, ?_⟩
      · show (detectLoop mm ts (detectStep mm ts st m) ms).1.get t = _
        rw [hloop.1, hstep.1]
      · intro r hr
        rcases hloop.2 r hr with h1 | h2
        · rcases hstep.2 r h1 with ha | hb
          · exact Or.inl ha
          · exact Or.inr hb
        · exact Or.inr h2

theorem detectStep_first_observation (mm : ℚ) (ts : String)
    (st : Baseline × List Mover) (m : MarketDict) (p : ℚ)
    (hp : currentPrice m = some p)
    (hb : st.1.get m.tickerVal = Option.none) :
    detectStep mm ts st m = (st.1.set m.tickerVal p, st.2) := by
  simp [detectStep, hp, hb]

theorem detectLoop_append (mm : ℚ) (ts : String) (a c : List MarketDict) :
    ∀ st, detectLoop mm ts st (a ++ c) =
      detectLoop mm ts (detectLoop mm ts st a) c := by
  induction a with
  | nil => intro st; rfl
  | cons x xs ih => intro st; exact ih (detectStep mm ts st x)

/-- Claim C3 (confirmed): a ticker absent from the baseline that occurs
once in the batch (tickers are unique per fetch) gets no movement
record this cycle, and the baseline afterwards maps it to its first
observed price. -/
theorem C3_first_observation (mm : ℚ) (ts : String) (b : Baseline)
    (pre post : List MarketDict) (m : MarketDict) (p : ℚ)
    (hp : currentPrice m = some p)
    (hb : b.get m.tickerVal = Option.none)
    (hpre : ∀ m' ∈ pre, m'.tickerVal ≠ m.tickerVal)
    (hpost : ∀ m' ∈ post, m'.tickerVal ≠ m.tickerVal) :
    (detectMovers mm ts b (pre ++ m :: post)).1.get m.tickerVal = some p ∧
    ∀ r ∈ (detectMovers mm ts b (pre ++ m :: post)).2,
      r.ticker ≠ m.tickerVal := by
  have hpre' := detectLoop_other_tickers mm ts m.tickerVal pre (b, []) hpre
  have hb1 : (detectLoop mm ts (b, []) pre).1.get m.tickerVal =
      Option.none := by rw [hpre'.1]; exact hb
  have hstep := detectStep_first_observation mm ts
    (detectLoop mm ts (b, []) pre) m p hp hb1
  have hsplit : detectMovers mm ts b (pre ++ m :: post) =
      detectLoop mm ts
        (((detectLoop mm ts (b, []) pre).1.set m.tickerVal p,
          (detectLoop mm ts (b, []) pre).2)) post := by
    show detectLoop mm ts (b, []) (pre ++ m :: post) = _
    rw [detectLoop_append mm ts pre (m :: post) (b, [])]
    show detectLoop mm ts
      (detectStep mm ts (detectLoop mm ts (b, []) pre) m) post = _
    rw [hstep]
  have hpost' := detectLoop_other_tickers mm ts m.tickerVal post
    ((detectLoop mm ts (b, []) pre).1.set m.tickerVal p,
     (detectLoop mm ts (b, []) pre).2) hpost
  constructor
  · rw [hsplit, hpost'.1]
    exact Baseline.get_set_self _ _ _
  · intro r hr
    rw [hsplit] at hr
    rcases hpost'.2 r hr with h1 | h2
    · rcases hpre'.2 r h1 with ha | hb2
      · exact absurd ha (List.not_mem_nil r)
      · exact hb2
    · exact h2

/-- Claim C3 witness: baseline knows only `A`; ticker `B` appears for
the first time at price 10. -/
theorem C3_witness :
    currentPrice (mkMarket (PyVal.str "B") 10) = some 10 ∧
    Baseline.get [(PyVal.str "A", 50)]
      (mkMarket (PyVal.str "B") 10).tickerVal = Option.none ∧
    (detectMovers 1 "ts" [(PyVal.str "A", 50)]
        ([] ++ mkMarket (PyVal.str "B") 10 :: [])).1.get
      (mkMarket (PyVal.str "B") 10).tickerVal = some 10 :=
  ⟨rfl, rfl,
   (C3_first_observation 1 "ts" [(PyVal.str "A", 50)] [] []
      (mkMarket (PyVal.str "B") 10) 10 rfl rfl
      (by simp) (by simp)).1⟩

/-- Claim C4 (corrected at an explicit input): with threshold 0 and
`current price == baseline price` (both 50), `abs(0) >= 0` holds, so
the worker does emit a movement record (with `change = 0`), contrary
to the claim that every non-negative threshold yields zero records. -/
theorem C4_counterexample :
    (detectMovers 0 "ts" [(PyVal.str "A", 50)]
        [mkMarket (PyVal.str "A") 50]).2 ≠ [] ∧
    (detectMovers 0 "ts" [(PyVal.str "A", 50)]
        [mkMarket (PyVal.str "A") 50]).2.length = 1 := by
  have key : (detectMovers 0 "ts" [(PyVal.str "A", 50)]
      [mkMarket (PyVal.str "A") 50]).2 =
      [{ ticker := PyVal.str "A", change := 0, old := 50, new := 50,
         timestamp := "ts" }] := by
    norm_num [detectMovers, detectLoop, detectStep, currentPrice_mkMarket,
      mkMarket_tickerVal, Baseline.get, Baseline.set]
  rw [key]
  simp

/-- Claim C4 (amended): for every positive threshold, a quote whose
current price equals its baseline price produces no movement record and
leaves the detector state — baseline entry included — exactly unchanged
(with threshold 0 the worker instead emits a zero-change record and
rewrites the entry with the same value). -/
theorem C4_equal_price_noop (mm : ℚ) (ts : String)
    (st : Baseline × List Mover) (m : MarketDict) (p : ℚ)
    (hmm : 0 < mm) (hp : currentPrice m = some p)
    (hprev : st.1.get m.tickerVal = some p) :
    detectStep mm ts st m = st := by
  have h0 : ¬ mm ≤ (0 : ℚ) := not_le.mpr hmm
  simp [detectStep, hp, hprev, h0]

/-- Claim C4 witness: threshold 1, price and baseline both 50. -/
theorem C4_witness :
    (0 : ℚ) < 1 ∧
    detectStep 1 "ts" ([(PyVal.str "A", 50)], [])
      (mkMarket (PyVal.str "A") 50) = ([(PyVal.str "A", 50)], []) :=
  ⟨by norm_num,
   C4_equal_price_noop 1 "ts" ([(PyVal.str "A", 50)], [])
     (mkMarket (PyVal.str "A") 50) 50 (by norm_num) rfl rfl⟩
